import Mathlib

/-!
# MAGPIE — formal model of the stage-orchestration / identity-reconciliation core

Shallow embedding of the Python sources under `src/magpie/steps/` (taxonomy.py,
prep.py, qc.py, checkm.py, gtdbtk.py).  Python `str` values are modelled as
`List Char` (`PyStr`); Python dicts as association lists with an
insert-that-overwrites operation mirroring `d[k] = v`; fallible steps return
`Except`.  Floating-point quality metrics are modelled as rationals (the
comparisons the code performs are order comparisons only).
-/

deriving instance DecidableEq for Except

namespace Magpie

/-- Python `str`, modelled as its list of characters (code points). -/
abbrev PyStr := List Char

/-- Characters removed by Python's `str.strip()` (ASCII whitespace; the
Unicode whitespace range is irrelevant to the identifiers handled here). -/
def isPySpace (c : Char) : Bool :=
  c = ' ' || c = '\t' || c = '\n' || c = '\r' || c = '\x0B' || c = '\x0C'

/-- Python `s.strip()`: remove leading and trailing whitespace. -/
def pyStrip (s : PyStr) : PyStr :=
  ((s.dropWhile isPySpace).reverse.dropWhile isPySpace).reverse

/-- Python `str.lower()` restricted to ASCII (the only case the pipeline's
filenames exercise): map `A`–`Z` to `a`–`z`. -/
def asciiLower (c : Char) : Char :=
  if 65 ≤ c.toNat && c.toNat ≤ 90 then Char.ofNat (c.toNat + 32) else c

/-- Python `s.lower()` on a whole string. -/
def pyLower (s : PyStr) : PyStr := s.map asciiLower

/-- Python `s.endswith(suf)`. -/
def pyEndsWith (s suf : PyStr) : Bool := suf.isSuffixOf s

/-- Python `s[: -n]` for `0 < n ≤ len(s)` (drop the last `n` characters). -/
def dropLast' (s : PyStr) (n : Nat) : PyStr := s.take (s.length - n)

/-- taxonomy.py lines 15–24: the ordered list `SUFFIXES` of known compound
genome-file suffixes, most specific first. -/
def SUFFIXES : List PyStr :=
  ["_genomic.fna.gz".data, "_genomic.fna".data, ".fa.gz".data, ".fna.gz".data,
   ".fasta.gz".data, ".fa".data, ".fna".data, ".fasta".data]

/-- The first (highest-priority) entry of `SUFFIXES` that is a suffix of `s`,
mirroring the `for suf in SUFFIXES: if s.endswith(suf)` loop. -/
def firstSuffix (s : PyStr) : Option PyStr :=
  SUFFIXES.find? (fun suf => pyEndsWith s suf)

/-- taxonomy.py lines 27–41, `_strip_suffix`: strip whitespace, then remove
the first matching known suffix; otherwise return the stripped string. -/
def _strip_suffix (name : PyStr) : PyStr :=
  match firstSuffix (pyStrip name) with
  | some suf => dropLast' (pyStrip name) suf.length
  | none => pyStrip name

/-- taxonomy.py lines 44–50, `_infer_domain`: fixed-prefix convention on the
classification string. -/
def _infer_domain (classification : Option PyStr) : PyStr :=
  match classification with
  | some c =>
    if ("d__Bacteria".data).isPrefixOf c then "Bacteria".data
    else if ("d__Archaea".data).isPrefixOf c then "Archaea".data
    else "Unknown".data
  | none => "Unknown".data

/-! ## Python dict and sorting primitives -/

/-- Python `d[k] = v` on a dict represented as an association list: overwrite
the value in place if the key is present (keeping its position, as Python
dicts keep insertion order), else append the new pair. -/
def dictInsert (m : List (PyStr × PyStr)) (k v : PyStr) : List (PyStr × PyStr) :=
  match m with
  | [] => [(k, v)]
  | (k', v') :: rest => if k' = k then (k, v) :: rest else (k', v') :: dictInsert rest k v

/-- Python `a <= b` on strings: lexicographic comparison by code point. -/
def pyLe : PyStr → PyStr → Bool
  | [], _ => true
  | _ :: _, [] => false
  | a :: as, b :: bs =>
    if a.toNat < b.toNat then true
    else if b.toNat < a.toNat then false
    else pyLe as bs

/-- Insert `x` into a list sorted by `le`, before the first element it is
`le`-below-or-equal (the stable insertion step of insertion sort). -/
def insertSorted (le : α → α → Bool) (x : α) : List α → List α
  | [] => [x]
  | y :: ys => if le x y then x :: y :: ys else y :: insertSorted le x ys

/-- Stable insertion sort; models Python's (stable) `sorted`. -/
def sortByLe (le : α → α → Bool) : List α → List α
  | [] => []
  | x :: xs => insertSorted le x (sortByLe le xs)

/-- Join a list of strings with a separator (Python `sep.join(xs)`). -/
def joinBy (sep : PyStr) : List PyStr → PyStr
  | [] => []
  | [x] => x
  | x :: y :: xs => x ++ sep ++ joinBy sep (y :: xs)

/-! ## Preparation Stage (prep.py) -/

/-- prep.py line 9: `FASTA_SUFFIXES`. -/
def FASTA_SUFFIXES : List PyStr := [".fa".data, ".fna".data, ".fasta".data]

/-- prep.py line 10: `FASTA_GZ_SUFFIXES`. -/
def FASTA_GZ_SUFFIXES : List PyStr := [".fa.gz".data, ".fna.gz".data, ".fasta.gz".data]

/-- prep.py lines 13–15, `_is_fasta`: lowercased name ends with a plain or
gzipped FASTA suffix. -/
def _is_fasta (name : PyStr) : Bool :=
  FASTA_SUFFIXES.any (fun s => pyEndsWith (pyLower name) s) ||
  FASTA_GZ_SUFFIXES.any (fun s => pyEndsWith (pyLower name) s)

/-- prep.py lines 18–20, `_iter_mag_fastas`: keep the FASTA files of the
directory listing and sort them by lowercased name (`key=lambda x:
x.name.lower()`).  The listing is modelled as the names of the regular files
in the input directory, in the (arbitrary) order `iterdir` yields them. -/
def _iter_mag_fastas (listing : List PyStr) : List PyStr :=
  sortByLe (fun a b => pyLe (pyLower a) (pyLower b)) (listing.filter _is_fasta)

/-- `pathlib.Path.stem`: let `i` be the index of the last dot of the name;
if `0 < i < len(name) - 1`, the stem is `name[:i]`, otherwise the whole name. -/
def pyStem (name : PyStr) : PyStr :=
  match name.reverse.findIdx? (fun c => c = '.') with
  | none => name
  | some rIdx =>
    let i := name.length - 1 - rIdx
    if 0 < i ∧ i < name.length - 1 then name.take i else name

/-- prep.py lines 105–116, the non-sequential branch: default canonical ID of
a filename — `Path.stem`, except that for `*.fa.gz`/`*.fna.gz`/`*.fasta.gz`
the `.gz` is dropped and then the first matching of `.fa`/`.fna`/`.fasta`
(compared lowercased) is also dropped. -/
def prepDefaultId (name : PyStr) : PyStr :=
  if pyEndsWith (pyLower name) (".fa.gz".data) || pyEndsWith (pyLower name) (".fna.gz".data)
      || pyEndsWith (pyLower name) (".fasta.gz".data) then
    let base := dropLast' name 3
    match FASTA_SUFFIXES.find? (fun suf => pyEndsWith (pyLower base) suf) with
    | some suf => dropLast' base suf.length
    | none => base
  else pyStem name

/-- Python `f"{i:0{pad}d}"`: decimal digits left-padded with zeros to `pad`. -/
def fmtPad (pad i : Nat) : PyStr :=
  let ds := Nat.toDigits 10 i
  List.replicate (pad - ds.length) '0' ++ ds

/-- prep.py line 98: the sequential ID `f"{out_prefix}{i:0{pad}d}"`. -/
def seqId (outPre : PyStr) (pad i : Nat) : PyStr := outPre ++ fmtPad pad i

/-- The ways `prep_step` aborts (prep.py lines 77–102): existing checkpoint
without `--force`, empty input, `--rename-map` with `--sequential-ids`, or an
existing destination file without `--force`. -/
inductive PrepError
  | alreadyPrepared
  | noFastas
  | renameWithSequential
  | destExists
deriving DecidableEq

/-- Record a destination filename as written (duplicate names collapse, as a
second write to the same path replaces the first file). -/
def insertName (d : List PyStr) (n : PyStr) : List PyStr :=
  if n ∈ d then d else d ++ [n]

/-- prep.py lines 93–127, the per-file loop: assign `new_id` (sequential or
default), form the destination filename, fail if that destination was already
written and `--force` is absent, and record the `(original, new_id)` mapping
row.  `i` is the 1-based counter; `written` the destination names present in
`out/mags` so far (the output directory starts empty on a fresh run). -/
def prepLoop (force seq : Bool) (outPre : PyStr) (pad : Nat) :
    Nat → List PyStr → List PyStr → Except PrepError (List (PyStr × PyStr))
  | _, _, [] => .ok []
  | i, written, name :: rest =>
    let newId := if seq then seqId outPre pad i else prepDefaultId name
    let dstName := if seq then newId ++ "_genomic.fna.gz".data else newId ++ ".fna".data
    if dstName ∈ written ∧ force = false then .error .destExists
    else
      match prepLoop force seq outPre pad (i + 1) (insertName written dstName) rest with
      | .error e => .error e
      | .ok tail => .ok ((name, newId) :: tail)

/-- prep.py lines 50–129, `prep_step`, up to the ID-mapping rows it writes to
`id_map.tsv`: checkpoint gate, deterministic enumeration, empty-input and
option-compatibility checks, then the assignment loop.  Note that after the
compatibility check the source never reads `rename_map` again (its own
comment: "For v0.1: ignore rename_map"). -/
def prep_step (reportExists mapExists : Bool) (listing : List PyStr)
    (renameMap : Option (List (PyStr × PyStr))) (force seq : Bool)
    (outPre : PyStr) (pad : Nat) : Except PrepError (List (PyStr × PyStr)) :=
  if (reportExists || mapExists) && !force then .error .alreadyPrepared
  else
    let files := _iter_mag_fastas listing
    if files = [] then .error .noFastas
    else if renameMap.isSome && seq then .error .renameWithSequential
    else prepLoop force seq outPre pad 1 [] files

/-! ## Taxonomy Resolver (taxonomy.py) -/

/-- taxonomy.py lines 185–200: fold over the deduplicated GTDB-Tk entries
`(user_genome, classification)`; skip (and count) `Unknown` domains; normalise
the external ID with `_strip_suffix`; translate it through the prep rename
map, falling back to the normalised ID; and write `domain_by_id[mag_id] =
dom` — a plain dict assignment, so a later entry overwrites an earlier one.
Returns the final `domain_by_id` together with the `unknown` counter. -/
def buildDomainMap (renameMap : List (PyStr × PyStr)) (gtdb : List (PyStr × PyStr)) :
    List (PyStr × PyStr) × Nat :=
  gtdb.foldl
    (fun acc entry =>
      let dom := _infer_domain (some entry.2)
      if dom = ("Unknown".data) then (acc.1, acc.2 + 1)
      else
        let ugNorm := _strip_suffix entry.1
        let magId := (List.lookup ugNorm renameMap).getD ugNorm
        (dictInsert acc.1 magId dom, acc.2))
    ([], 0)

/-- One row of a tab-separated file as `csv.writer` (default dialect) emits
it: cells joined by tabs, terminated by `\r\n`. -/
def tsvRow (cells : List PyStr) : PyStr := joinBy ("\t".data) cells ++ "\r\n".data

/-- taxonomy.py lines 215–219: the bytes of `domain_map.tsv` — a header row
followed by one row per canonical ID, in sorted key order. -/
def renderDomainMap (m : List (PyStr × PyStr)) : PyStr :=
  tsvRow ["genome_id".data, "domain".data] ++
    ((sortByLe pyLe (m.map Prod.fst)).map
      (fun gid => tsvRow [gid, (List.lookup gid m).getD []])).flatten

/-- taxonomy.py lines 249–253, `write_id_list`: the bytes of a per-domain ID
list regenerated from the actual directory contents — non-hidden filenames,
sorted, each stripped with `_strip_suffix`, joined by newlines with a final
newline iff the list is nonempty. -/
def write_id_list (dirContents : List PyStr) : PyStr :=
  let ids := (sortByLe pyLe (dirContents.filter
      (fun n => !(decide (n.head? = some '.'))))).map _strip_suffix
  joinBy ("\n".data) ids ++ (if ids = [] then [] else "\n".data)

/-- Copy files named `ns` into a directory currently holding `d` (with
`--force`, an existing destination of the same name is overwritten, so the
name set only grows by the new names). -/
def copyAll (d : List PyStr) (ns : List PyStr) : List PyStr := ns.foldl insertName d

/-- taxonomy.py lines 225–231: the destination filenames copied into the
`bacteria` split directory — one per domain-map entry whose domain is
`Bacteria`, named after the source file found for the ID (`dst = dst_dir /
src.name`; `fileName` gives the name `_find_prepped_genome` resolves for each
ID, which is fixed by the prep directory contents). -/
def bacFileNames (renameMap gtdb : List (PyStr × PyStr)) (fileName : PyStr → PyStr) : List PyStr :=
  (((buildDomainMap renameMap gtdb).1.filter
      (fun e => e.2 = ("Bacteria".data))).map (fun e => fileName e.1))

/-- taxonomy.py line 230 `else arc_dir`: every non-`Bacteria` entry is copied
into the `archaea` split directory. -/
def arcFileNames (renameMap gtdb : List (PyStr × PyStr)) (fileName : PyStr → PyStr) : List PyStr :=
  (((buildDomainMap renameMap gtdb).1.filter
      (fun e => ¬ e.2 = ("Bacteria".data))).map (fun e => fileName e.1))

/-- The artifacts of `taxonomy_step` that claim C9 speaks about. -/
structure TaxArtifacts where
  domainMapBytes : PyStr
  bacteriaListBytes : PyStr
  archaeaListBytes : PyStr
deriving DecidableEq

/-- taxonomy.py lines 210–258, the artifact-producing tail of `taxonomy_step`
on a run that succeeds (every ID resolves to a file): `domain_map.tsv` is
rendered from the in-memory map; the split directories receive the per-domain
file copies on top of whatever they already contain (`priorBac`/`priorArc`,
empty on a first run; with `--force` existing same-name destinations are
overwritten); the ID lists are regenerated from the resulting directory
contents. -/
def taxonomyArtifacts (renameMap gtdb : List (PyStr × PyStr)) (fileName : PyStr → PyStr)
    (priorBac priorArc : List PyStr) : TaxArtifacts :=
  { domainMapBytes := renderDomainMap (buildDomainMap renameMap gtdb).1
    bacteriaListBytes := write_id_list (copyAll priorBac (bacFileNames renameMap gtdb fileName))
    archaeaListBytes := write_id_list (copyAll priorArc (arcFileNames renameMap gtdb fileName)) }

/-! ## Stage checkpoint gates (claim C5) -/

/-- What a stage does when rerun against its own previous outputs. -/
inductive RerunBehavior
  | refuse
  | reuse
  | runStage
deriving DecidableEq

/-- prep.py lines 77–78: `if (report_fp.exists() or map_fp.exists()) and not
force: raise FileExistsError`. -/
def prep_gate (reportExists mapExists force : Bool) : RerunBehavior :=
  if (reportExists || mapExists) && !force then .refuse else .runStage

/-- gtdbtk.py lines 59–61: `if report_fp.exists() and not force: raise
FileExistsError`. -/
def gtdbtk_gate (reportExists force : Bool) : RerunBehavior :=
  if reportExists && !force then .refuse else .runStage

/-- taxonomy.py lines 170–172: `if report_fp.exists() and not force: raise
FileExistsError`. -/
def taxonomy_gate (reportExists force : Bool) : RerunBehavior :=
  if reportExists && !force then .refuse else .runStage

/-- checkm.py lines 106–109: `if merged_min.exists() and not force:` log
"Reusing existing merged CheckM TSV" and `return merged_min` — the quality
adapter reuses its existing checkpoint instead of raising. -/
def checkm_gate (mergedExists force : Bool) : RerunBehavior :=
  if mergedExists && !force then .reuse else .runStage

/-- qc.py, `qc_step` (lines 109–239): the QC resolver has no checkpoint
artifact and no existence gate of its own — it opens its output tables with
mode `"w"` unconditionally and always proceeds (only the nested `checkm_step`
call consults a checkpoint). -/
def qc_gate (_force : Bool) : RerunBehavior := .runStage

/-! ## QC Resolver (qc.py) -/

/-- The ways `qc_step` aborts: invalid `--place-mode` (line 124), CheckM IDs
missing from the domain map (lines 159–164, the exception message shows the
first ten of the sorted list the error carries here), or filtered IDs with no
file in the split directories (lines 235–239). -/
inductive QcError
  | badPlaceMode
  | idMismatch (missing : List PyStr)
  | missingFiles (missing : List PyStr)
deriving DecidableEq

/-- qc.py line 124: the accepted placement modes. -/
def placeModeOk (mode : PyStr) : Bool :=
  mode = ("copy".data) || mode = ("symlink".data) || mode = ("hardlink".data)

/-- qc.py line 159: `sorted(set(checkm.keys()) - set(domain_map.keys()))`. -/
def qcMissingIds (domainMap : List (PyStr × PyStr)) (checkm : List (PyStr × ℚ × ℚ)) : List PyStr :=
  sortByLe pyLe (((checkm.map Prod.fst).filter
    (fun k => (List.lookup k domainMap).isNone)).dedup)

/-- qc.py line 179: the filter predicate `cpl >= completeness_min and cnt <=
contamination_max` (CheckM's float metrics modelled as rationals). -/
def qcKeep (cmin cmax cpl cnt : ℚ) : Bool :=
  decide (cmin ≤ cpl) && decide (cnt ≤ cmax)

/-- qc.py lines 167–178: one row `(genome_id, domain, completeness,
contamination)` per CheckM entry, the domain joined in from the domain map. -/
def qcRowsAll (domainMap : List (PyStr × PyStr)) (checkm : List (PyStr × ℚ × ℚ)) :
    List (PyStr × PyStr × ℚ × ℚ) :=
  checkm.map (fun e => (e.1, (List.lookup e.1 domainMap).getD [], e.2.1, e.2.2))

/-- qc.py lines 170–180: `rows_keep`, the rows of `checkm_filtered.tsv`. -/
def qcRowsKeep (domainMap : List (PyStr × PyStr)) (checkm : List (PyStr × ℚ × ℚ))
    (cmin cmax : ℚ) : List (PyStr × PyStr × ℚ × ℚ) :=
  (qcRowsAll domainMap checkm).filter (fun r => qcKeep cmin cmax r.2.2.1 r.2.2.2)

/-- qc.py lines 204–205: the sorted deduplicated kept IDs whose lowercased
domain starts with the given prefix (`"bact"` or `"arch"`). -/
def qcKeptIds (pre : PyStr) (rowsKeep : List (PyStr × PyStr × ℚ × ℚ)) : List PyStr :=
  sortByLe pyLe (((rowsKeep.filter
    (fun r => pre.isPrefixOf (pyLower r.2.1))).map Prod.fst).dedup)

/-- The successful outcome of `qc_step`: the two tables, the two kept-ID
lists, and the `(genome_id, source filename)` placements performed into
`out/bins`. -/
structure QcOutput where
  rowsAll : List (PyStr × PyStr × ℚ × ℚ)
  rowsKeep : List (PyStr × PyStr × ℚ × ℚ)
  bacIds : List PyStr
  arcIds : List PyStr
  placements : List (PyStr × PyStr)
deriving DecidableEq

/-- qc.py lines 109–239, `qc_step`, after CheckM results are in hand:
validate the placement mode; enforce the strict ID policy (raising before any
table is written or file placed); build and filter the joined rows; derive
the per-domain kept-ID lists; then resolve each kept ID through the split
directory indices (`bacIdx`/`arcIdx`, genome ID to filename) and place the
resolved files, collecting unresolved IDs (bacteria loop first) into one
aggregate error. -/
def qc_step (domainMap : List (PyStr × PyStr)) (checkm : List (PyStr × ℚ × ℚ))
    (cmin cmax : ℚ) (placeMode : PyStr) (bacIdx arcIdx : PyStr → Option PyStr) :
    Except QcError QcOutput :=
  if !placeModeOk placeMode then .error .badPlaceMode
  else
    let missing := qcMissingIds domainMap checkm
    if missing ≠ [] then .error (.idMismatch missing)
    else
      let rowsAll := qcRowsAll domainMap checkm
      let rowsKeep := qcRowsKeep domainMap checkm cmin cmax
      let bacIds := qcKeptIds ("bact".data) rowsKeep
      let arcIds := qcKeptIds ("arch".data) rowsKeep
      let missingFiles := bacIds.filter (fun g => (bacIdx g).isNone) ++
        arcIds.filter (fun g => (arcIdx g).isNone)
      if missingFiles ≠ [] then .error (.missingFiles missingFiles)
      else
        .ok { rowsAll := rowsAll, rowsKeep := rowsKeep, bacIds := bacIds, arcIds := arcIds
              placements := bacIds.filterMap (fun g => (bacIdx g).map (fun n => (g, n))) ++
                arcIds.filterMap (fun g => (arcIdx g).map (fun n => (g, n))) }

/-! ## File placement (qc.py `_place_file`) -/

/-- What `_place_file` ends up doing on disk. -/
inductive PlaceAction
  | noAction
  | copied
  | symlinked
  | hardlinked
  | fallbackCopy
deriving DecidableEq

/-- The one exception `_place_file` can raise itself (an unknown mode string;
`OSError` from a link attempt is caught and handled by the copy fallback). -/
inductive PlaceError
  | unknownMode
deriving DecidableEq

/-- qc.py lines 74–89, `_place_file`: if the destination already exists,
return immediately; otherwise dispatch on the mode string, and on an
`OSError` from the attempted operation fall back to a plain copy.  The
function takes no force/override parameter at all, so its behaviour cannot
depend on one.  `osError` models whether the attempted operation raises
`OSError`. -/
def _place_file (dstExists : Bool) (mode : PyStr) (osError : Bool) :
    Except PlaceError PlaceAction :=
  if dstExists then .ok .noAction
  else if mode = ("copy".data) then .ok (if osError then .fallbackCopy else .copied)
  else if mode = ("symlink".data) then .ok (if osError then .fallbackCopy else .symlinked)
  else if mode = ("hardlink".data) then .ok (if osError then .fallbackCopy else .hardlinked)
  else .error .unknownMode

/-! ## Helper lemmas -/

theorem mem_insertSorted {le : α → α → Bool} {x y : α} {l : List α} :
    x ∈ insertSorted le y l ↔ x = y ∨ x ∈ l := by
  induction l with
  | nil => simp [insertSorted]
  | cons z zs ih =>
    simp only [insertSorted]
    split
    · simp
    · simp only [List.mem_cons, ih]
      tauto

theorem mem_sortByLe {le : α → α → Bool} {x : α} {l : List α} :
    x ∈ sortByLe le l ↔ x ∈ l := by
  induction l with
  | nil => simp [sortByLe]
  | cons y ys ih => simp [sortByLe, mem_insertSorted, ih]

theorem length_insertSorted (le : α → α → Bool) (x : α) (l : List α) :
    (insertSorted le x l).length = l.length + 1 := by
  induction l with
  | nil => rfl
  | cons y ys ih =>
    simp only [insertSorted]
    split <;> simp [ih]

theorem length_sortByLe (le : α → α → Bool) (l : List α) :
    (sortByLe le l).length = l.length := by
  induction l with
  | nil => rfl
  | cons y ys ih => simp [sortByLe, length_insertSorted, ih]

theorem lookup_dictInsert_self (m : List (PyStr × PyStr)) (k v : PyStr) :
    List.lookup k (dictInsert m k v) = some v := by
  induction m with
  | nil => simp [dictInsert, List.lookup]
  | cons e rest ih =>
    by_cases h : e.1 = k
    · simp [dictInsert, h, List.lookup]
    · simp only [dictInsert, h, if_false, List.lookup]
      have : (k == e.1) = false := by
        exact beq_eq_false_iff_ne.mpr (fun hk => h (hk ▸ rfl))
      simp [this, ih]

theorem mem_insertName_self (d : List PyStr) (n : PyStr) : n ∈ insertName d n := by
  unfold insertName
  split
  · assumption
  · simp

theorem mem_insertName_of_mem {x : PyStr} (d : List PyStr) (n : PyStr) (h : x ∈ d) :
    x ∈ insertName d n := by
  unfold insertName
  split
  · assumption
  · simp [h]

theorem mem_copyAll_of_mem_left {x : PyStr} (ns : List PyStr) (d : List PyStr) (h : x ∈ d) :
    x ∈ copyAll d ns := by
  induction ns generalizing d with
  | nil => simpa [copyAll] using h
  | cons n ns ih => exact ih (insertName d n) (mem_insertName_of_mem d n h)

theorem mem_copyAll_of_mem {x : PyStr} (ns : List PyStr) (d : List PyStr) (h : x ∈ ns) :
    x ∈ copyAll d ns := by
  induction ns generalizing d with
  | nil => cases h
  | cons n ns ih =>
    rcases List.mem_cons.mp h with rfl | hx
    · exact mem_copyAll_of_mem_left ns (insertName d x) (mem_insertName_self d x)
    · exact ih (insertName d n) hx

theorem copyAll_eq_of_subset (ns : List PyStr) (d : List PyStr)
    (h : ∀ x ∈ ns, x ∈ d) : copyAll d ns = d := by
  induction ns with
  | nil => rfl
  | cons n ns ih =>
    have hn : n ∈ d := h n (List.mem_cons_self n ns)
    have : insertName d n = d := by simp [insertName, hn]
    show copyAll (insertName d n) ns = d
    rw [this]
    exact ih (fun x hx => h x (List.mem_cons_of_mem n hx))

theorem copyAll_idem (ns : List PyStr) :
    copyAll (copyAll [] ns) ns = copyAll [] ns :=
  copyAll_eq_of_subset ns (copyAll [] ns) (fun _ hx => mem_copyAll_of_mem ns [] hx)

theorem length_pyStrip_le (s : PyStr) : (pyStrip s).length ≤ s.length := by
  unfold pyStrip
  simp only [List.length_reverse]
  exact le_trans ((List.dropWhile_sublist _).length_le)
    (by simpa using (List.dropWhile_sublist (l := s) isPySpace).length_le)

/-! ## Claim C1 — idempotence of `_strip_suffix` -/

/-- C1, counterexample: the claim "`_strip_suffix` is idempotent on every
input string" is false.  On `x.fna.fna` the first application removes the
final `.fna`, leaving `x.fna`, which still ends in a known suffix, so a
second application strips again. -/
theorem C1_strip_not_idempotent_cex :
    _strip_suffix (_strip_suffix ("x.fna.fna".data)) ≠ _strip_suffix ("x.fna.fna".data) := by
  decide

/-- C1, amended: `_strip_suffix` is idempotent on exactly those inputs whose
first-application result is already whitespace-stripped and itself ends in no
known suffix — both directions: under those conditions the result is a fixed
point, and conversely a fixed point forces both conditions, because a
successful suffix match always removes a nonempty suffix of the (no longer
than the input) stripped string and therefore shortens it. -/
theorem C1_strip_idempotent_amended (s : PyStr) :
    _strip_suffix (_strip_suffix s) = _strip_suffix s ↔
      pyStrip (_strip_suffix s) = _strip_suffix s ∧
      firstSuffix (_strip_suffix s) = none := by
  generalize _strip_suffix s = r
  constructor
  · intro h
    cases hf : firstSuffix (pyStrip r) with
    | none =>
      have hstrip : _strip_suffix r = pyStrip r := by simp only [_strip_suffix, hf]
      have h1 : pyStrip r = r := by rw [← hstrip, h]
      exact ⟨h1, by rw [← h1]; exact hf⟩
    | some suf =>
      exfalso
      have hsufx : pyEndsWith (pyStrip r) suf = true := List.find?_some hf
      have hmem : suf ∈ SUFFIXES := List.mem_of_find?_eq_some hf
      have hne : suf ≠ [] := by
        have hall : ∀ x ∈ SUFFIXES, x ≠ ([] : PyStr) := by decide
        exact hall suf hmem
      obtain ⟨t, ht⟩ : suf <:+ pyStrip r := by simpa [pyEndsWith] using hsufx
      have hstrip : _strip_suffix r = t := by
        simp only [_strip_suffix, hf, dropLast']
        rw [← ht]
        have hl : (t ++ suf).length - suf.length = t.length := by simp
        rw [hl, List.take_left]
      have hrt : r = t := by rw [← h, hstrip]
      have hlen : (pyStrip r).length ≤ r.length := length_pyStrip_le r
      rw [← ht, List.length_append, ← hrt] at hlen
      have hz : suf.length = 0 := by omega
      exact hne (List.eq_nil_of_length_eq_zero hz)
  · intro ⟨h1, h2⟩
    simp only [_strip_suffix, h1, h2]

/-- C1, witness: the amended characterisation applied at
`BC13.bin.1.603.fna.gz`, whose stripped form `BC13.bin.1.603` satisfies both
side conditions and is accordingly a fixed point. -/
theorem C1_strip_idempotent_amended_witness :
    pyStrip (_strip_suffix ("BC13.bin.1.603.fna.gz".data)) =
      _strip_suffix ("BC13.bin.1.603.fna.gz".data) ∧
    firstSuffix (_strip_suffix ("BC13.bin.1.603.fna.gz".data)) = none ∧
    _strip_suffix (_strip_suffix ("BC13.bin.1.603.fna.gz".data)) =
      _strip_suffix ("BC13.bin.1.603.fna.gz".data) :=
  ⟨by decide, by decide,
    (C1_strip_idempotent_amended _).mpr ⟨by decide, by decide⟩⟩

/-! ## Claim C2 — exact suffix removal, unmodified otherwise -/

/-- C2, counterexample: the claim "for every string ending in no known suffix
the input is returned unmodified" is false: `" a"` (leading space) ends in no
known suffix, yet `_strip_suffix` returns `"a"`, because the source calls
`str.strip()` before suffix matching. -/
theorem C2_no_suffix_unmodified_cex :
    (∀ suf ∈ SUFFIXES, pyEndsWith (" a".data) suf = false) ∧
    _strip_suffix (" a".data) ≠ (" a".data) := by
  decide

/-- C2, amended: `BC13.bin.1.603.fna.gz` strips to exactly `BC13.bin.1.603`;
for every whitespace-stripped string ending in a known suffix, the result
concatenated with the first-priority matching suffix reproduces the input
(exactly that suffix was removed, and nothing more); and every
whitespace-stripped string ending in no known suffix is returned unmodified. -/
theorem C2_strip_exact_suffix_amended :
    _strip_suffix ("BC13.bin.1.603.fna.gz".data) = ("BC13.bin.1.603".data) ∧
    (∀ s suf, pyStrip s = s → firstSuffix s = some suf → _strip_suffix s ++ suf = s) ∧
    (∀ s, pyStrip s = s → firstSuffix s = none → _strip_suffix s = s) := by
  refine ⟨by decide, ?_, ?_⟩
  · intro s suf h1 h2
    have hsuf : pyEndsWith s suf = true := List.find?_some h2
    have hs : suf <:+ s := by
      simpa [pyEndsWith] using hsuf
    obtain ⟨t, ht⟩ := hs
    have hlen : s.length - suf.length = t.length := by
      subst ht; simp
    simp only [_strip_suffix, h1, h2, dropLast', hlen]
    rw [← ht, List.take_left' rfl]
  · intro s h1 h2
    simp [_strip_suffix, h1, h2]

/-- C2, witness: the exact-removal clause applied at `BC13.bin.1.603.fna.gz`,
whose first-priority matching suffix is `.fna.gz`. -/
theorem C2_strip_exact_suffix_amended_witness :
    pyStrip ("BC13.bin.1.603.fna.gz".data) = ("BC13.bin.1.603.fna.gz".data) ∧
    firstSuffix ("BC13.bin.1.603.fna.gz".data) = some (".fna.gz".data) ∧
    _strip_suffix ("BC13.bin.1.603.fna.gz".data) ++ (".fna.gz".data) =
      ("BC13.bin.1.603.fna.gz".data) :=
  ⟨by decide, by decide, C2_strip_exact_suffix_amended.2.1 _ _ (by decide) (by decide)⟩

/-! ## Claim C3 — the explicit rename table -/

/-- C3, counterexample: the claim that a file whose default ID appears in the
rename table receives the table's ID is false.  With input `old1.fna` and a
table mapping `old1 → new1`, `prep_step` emits the default ID `old1`, not
`new1`: v0.1 ignores the table. -/
theorem C3_rename_table_applied_cex :
    prep_step false false ["old1.fna".data] (some [("old1".data, "new1".data)]) false false
      ("MAG".data) 4 = .ok [("old1.fna".data, "old1".data)] ∧
    prep_step false false ["old1.fna".data] (some [("old1".data, "new1".data)]) false false
      ("MAG".data) 4 ≠ .ok [("old1.fna".data, "new1".data)] := by
  decide

/-- C3, amended: without sequential numbering the supplied rename table has
no effect at all — `prep_step` behaves identically with and without it, so
every input keeps its default ID and no table-induced collision can arise
(the table is only consulted for the incompatibility check against
`--sequential-ids`). -/
theorem C3_rename_table_ignored_amended (reportExists mapExists : Bool) (listing : List PyStr)
    (tbl : List (PyStr × PyStr)) (force : Bool) (outPre : PyStr) (pad : Nat) :
    prep_step reportExists mapExists listing (some tbl) force false outPre pad =
      prep_step reportExists mapExists listing none force false outPre pad := by
  simp [prep_step]

/-! ## Claim C4 — ambiguous domain assignments -/

/-- C4, counterexample: the claim that two classifications with different
non-Unknown domains for one canonical ID are reported rather than resolved is
false.  `MAG1` (Bacteria) and `MAG1.fna` (Archaea) both normalise to the
canonical ID `MAG1`; `taxonomy_step` silently keeps the later entry
(`domain_by_id[mag_id] = dom` — last write wins) and signals nothing. -/
theorem C4_ambiguity_reported_cex :
    _infer_domain (some ("d__Bacteria;p__X".data)) = ("Bacteria".data) ∧
    _infer_domain (some ("d__Archaea;p__Y".data)) = ("Archaea".data) ∧
    _strip_suffix ("MAG1.fna".data) = _strip_suffix ("MAG1".data) ∧
    buildDomainMap []
        [("MAG1".data, "d__Bacteria;p__X".data), ("MAG1.fna".data, "d__Archaea;p__Y".data)] =
      ([("MAG1".data, "Archaea".data)], 0) ∧
    ("Bacteria".data : PyStr) ≠ ("Archaea".data) := by
  decide

/-- C4, amended: domain aggregation is last-write-wins — whatever was derived
from earlier entries, the canonical ID of the final non-Unknown entry ends up
mapped to that entry's domain, and no ambiguity is ever reported (the
aggregation is total and has no error outcome). -/
theorem C4_last_write_wins_amended (renameMap gtdb : List (PyStr × PyStr)) (ug cl : PyStr)
    (h : _infer_domain (some cl) ≠ ("Unknown".data)) :
    List.lookup ((List.lookup (_strip_suffix ug) renameMap).getD (_strip_suffix ug))
      (buildDomainMap renameMap (gtdb ++ [(ug, cl)])).1 = some (_infer_domain (some cl)) := by
  simp only [buildDomainMap, List.foldl_append, List.foldl_cons, List.foldl_nil]
  rw [if_neg h]
  exact lookup_dictInsert_self _ _ _

/-- C4, witness: the last-write-wins rule applied at a run whose final entry
classifies `G1` as Archaea. -/
theorem C4_last_write_wins_amended_witness :
    _infer_domain (some ("d__Archaea;p__X".data)) ≠ ("Unknown".data) ∧
    List.lookup ((List.lookup (_strip_suffix ("G1".data)) []).getD (_strip_suffix ("G1".data)))
      (buildDomainMap [] ([] ++ [(("G1".data), ("d__Archaea;p__X".data))])).1 =
      some (_infer_domain (some ("d__Archaea;p__X".data))) :=
  ⟨by decide, C4_last_write_wins_amended [] [] _ _ (by decide)⟩

/-! ## Claim C5 — checkpoint discipline of the five stages -/

/-- C5, counterexample: the claim that every stage refuses to rerun over an
existing checkpoint is false.  The quality adapter (`checkm_step`) reuses its
existing merged checkpoint and returns successfully, and the QC resolver
(`qc_step`) consults no checkpoint at all. -/
theorem C5_every_stage_refuses_cex :
    checkm_gate true false = .reuse ∧
    RerunBehavior.reuse ≠ RerunBehavior.refuse ∧
    qc_gate false = .runStage := by
  decide

/-- C5, amended: prepare, the classification adapter and the taxonomy
resolver refuse to rerun when their report checkpoint exists and the override
flag is not set; the quality adapter instead reuses its existing merged
checkpoint and returns it; the QC resolver maintains no checkpoint of its own
and always proceeds. -/
theorem C5_stage_gates_amended :
    (∀ m, prep_gate true m false = .refuse) ∧
    (∀ r, prep_gate r true false = .refuse) ∧
    gtdbtk_gate true false = .refuse ∧
    taxonomy_gate true false = .refuse ∧
    checkm_gate true false = .reuse ∧
    (∀ f, qc_gate f = .runStage) := by
  decide

/-! ## Claim C6 — sequential numbering order -/

/-- C6, counterexample: the claim that the files are numbered in lexicographic
order of their filenames is false.  Over `B.fna`, `a.fna`, `c.fna` the
lexicographic (code-point) order starts with `B.fna`, but `prep_step` sorts
by *lowercased* name and assigns `MAG0001` to `a.fna`. -/
theorem C6_lexicographic_order_cex :
    prep_step false false ["B.fna".data, "a.fna".data, "c.fna".data] none false true
      ("MAG".data) 4 =
      .ok [("a.fna".data, "MAG0001".data), ("B.fna".data, "MAG0002".data),
           ("c.fna".data, "MAG0003".data)] ∧
    sortByLe pyLe (["B.fna".data, "a.fna".data, "c.fna".data].filter _is_fasta) =
      ["B.fna".data, "a.fna".data, "c.fna".data] ∧
    prep_step false false ["B.fna".data, "a.fna".data, "c.fna".data] none false true
      ("MAG".data) 4 ≠
      .ok (List.zip (sortByLe pyLe (["B.fna".data, "a.fna".data, "c.fna".data].filter _is_fasta))
        ["MAG0001".data, "MAG0002".data, "MAG0003".data]) := by
  decide

/-- C6, amended: preparation with sequential numbering, prefix `MAG` and pad
4 over any 3 input genome files assigns `MAG0001`, `MAG0002`, `MAG0003` to
the files in the enumeration order of `_iter_mag_fastas` — lexicographic
order of the *lowercased* filenames. -/
theorem C6_sequential_ids_amended (listing : List PyStr) (force : Bool) (a b c : PyStr)
    (h : _iter_mag_fastas listing = [a, b, c]) :
    prep_step false false listing none force true ("MAG".data) 4 =
      .ok [(a, "MAG0001".data), (b, "MAG0002".data), (c, "MAG0003".data)] := by
  have e1 : seqId ("MAG".data) 4 1 = ("MAG0001".data) := by decide
  have e2 : seqId ("MAG".data) 4 2 = ("MAG0002".data) := by decide
  have e3 : seqId ("MAG".data) 4 3 = ("MAG0003".data) := by decide
  simp only [prep_step, h]
  simp +decide [prepLoop, insertName, e1, e2, e3]

/-- C6, witness: the amended numbering applied at the listing `g1.fna`,
`g2.fna`, `g3.fna`. -/
theorem C6_sequential_ids_amended_witness :
    _iter_mag_fastas ["g1.fna".data, "g2.fna".data, "g3.fna".data] =
      ["g1.fna".data, "g2.fna".data, "g3.fna".data] ∧
    prep_step false false ["g1.fna".data, "g2.fna".data, "g3.fna".data] none false true
      ("MAG".data) 4 =
      .ok [("g1.fna".data, "MAG0001".data), ("g2.fna".data, "MAG0002".data),
           ("g3.fna".data, "MAG0003".data)] :=
  ⟨by decide, C6_sequential_ids_amended _ _ _ _ _ (by decide)⟩

/-! ## Claim C7 — boundary-inclusive QC filtering -/

/-- C7: a row is in the kept table iff it is in the all-genomes table and its
completeness is ≥ `completeness_min` and its contamination is ≤
`contamination_max`; both comparisons are boundary-inclusive: at thresholds
90/10, a genome with completeness 90 and contamination 10 is kept, and one
with completeness 89.99 (= 8999/100) is excluded. -/
theorem C7_qc_filter_boundary_inclusive :
    (∀ (domainMap : List (PyStr × PyStr)) (checkm : List (PyStr × ℚ × ℚ)) (cmin cmax : ℚ)
      (r : PyStr × PyStr × ℚ × ℚ),
      r ∈ qcRowsKeep domainMap checkm cmin cmax ↔
        r ∈ qcRowsAll domainMap checkm ∧ cmin ≤ r.2.2.1 ∧ r.2.2.2 ≤ cmax) ∧
    ((mkRat 8999 100 : ℚ) = 8999 / 100) ∧
    (("G1".data, "Bacteria".data, (90 : ℚ), (10 : ℚ)) ∈
      qcRowsKeep [("G1".data, "Bacteria".data), ("G2".data, "Bacteria".data)]
        [("G1".data, (90 : ℚ), (10 : ℚ)), ("G2".data, (mkRat 8999 100 : ℚ), (5 : ℚ))] 90 10) ∧
    (("G2".data, "Bacteria".data, (mkRat 8999 100 : ℚ), (5 : ℚ)) ∉
      qcRowsKeep [("G1".data, "Bacteria".data), ("G2".data, "Bacteria".data)]
        [("G1".data, (90 : ℚ), (10 : ℚ)), ("G2".data, (mkRat 8999 100 : ℚ), (5 : ℚ))] 90 10) := by
  refine ⟨?_, by norm_num, by decide, by decide⟩
  intro dm ck cmin cmax r
  simp [qcRowsKeep, List.mem_filter, qcKeep, and_assoc]

/-! ## Claim C8 — strict ID policy fails before placement -/

/-- C8: if any CheckM genome ID is absent from the domain map, `qc_step`
fails with the ID-mismatch error carrying the sorted list of offending IDs
(the absent ID among them), short-circuiting before the tables, kept lists or
any file placement of the success branch are produced. -/
theorem C8_strict_id_policy (domainMap : List (PyStr × PyStr)) (checkm : List (PyStr × ℚ × ℚ))
    (cmin cmax : ℚ) (placeMode : PyStr) (bacIdx arcIdx : PyStr → Option PyStr) (gid : PyStr)
    (hpm : placeModeOk placeMode = true)
    (hmem : gid ∈ checkm.map Prod.fst)
    (habs : List.lookup gid domainMap = none) :
    qc_step domainMap checkm cmin cmax placeMode bacIdx arcIdx =
      .error (.idMismatch (qcMissingIds domainMap checkm)) ∧
    gid ∈ qcMissingIds domainMap checkm := by
  have hin : gid ∈ qcMissingIds domainMap checkm := by
    unfold qcMissingIds
    exact mem_sortByLe.mpr (List.mem_dedup.mpr (List.mem_filter.mpr ⟨hmem, by simp [habs]⟩))
  have hne : qcMissingIds domainMap checkm ≠ [] := List.ne_nil_of_mem hin
  refine ⟨?_, hin⟩
  simp [qc_step, hpm, hne]

/-- C8, witness: the strict ID policy applied at a run whose only CheckM ID
`B` is absent from a domain map containing only `A`. -/
theorem C8_strict_id_policy_witness :
    placeModeOk ("copy".data) = true ∧
    ("B".data) ∈ ([(("B".data), (95 : ℚ), (2 : ℚ))].map Prod.fst) ∧
    List.lookup ("B".data) [(("A".data), ("Bacteria".data))] = none ∧
    (qc_step [(("A".data), ("Bacteria".data))] [(("B".data), (95 : ℚ), (2 : ℚ))] 90 10
        ("copy".data) (fun _ => none) (fun _ => none) =
      .error (.idMismatch (qcMissingIds [(("A".data), ("Bacteria".data))]
        [(("B".data), (95 : ℚ), (2 : ℚ))])) ∧
      ("B".data) ∈ qcMissingIds [(("A".data), ("Bacteria".data))]
        [(("B".data), (95 : ℚ), (2 : ℚ))]) :=
  ⟨by decide, by decide, by decide,
    C8_strict_id_policy _ _ _ _ _ _ _ _ (by decide) (by decide) (by decide)⟩

/-! ## Claim C9 — two-run determinism of the taxonomy artifacts -/

/-- C9: rerunning the taxonomy stage with the override flag on identical
inputs — against the split directories its own first run left behind —
produces byte-identical `domain_map.tsv` and per-domain ID-list artifacts:
the domain map is rendered from the inputs alone, and re-copying the same
files into the already-populated split directories leaves their contents (and
hence the regenerated ID lists) unchanged. -/
theorem C9_two_run_determinism (renameMap gtdb : List (PyStr × PyStr))
    (fileName : PyStr → PyStr) :
    taxonomyArtifacts renameMap gtdb fileName
        (copyAll [] (bacFileNames renameMap gtdb fileName))
        (copyAll [] (arcFileNames renameMap gtdb fileName)) =
      taxonomyArtifacts renameMap gtdb fileName [] [] := by
  simp [taxonomyArtifacts, copyAll_idem]

/-! ## Claim C10 — `_place_file` never overwrites -/

/-- C10: whenever the destination already exists, `_place_file` returns
without error and performs no action, for every mode string (hence all three
placement modes) and whether or not the attempted operation would have raised
`OSError`; the function takes no force/override parameter, so no flag can
change this. -/
theorem C10_place_file_no_overwrite (mode : PyStr) (osError : Bool) :
    _place_file true mode osError = .ok .noAction := by
  simp [_place_file]

end Magpie
